import Mathlib

/-!
Verification development for the eink-ui playback display pipeline.

Shallow embedding of the repository's Python sources:
* `models.py` — `EvictingQueue`, `Command`, `SpotifyTrack`, `SpotifyContext`,
  `TrackState`, `ImageTask`, `RenderTask`;
* `spotify.py` — `PlaybackState` (with its handwritten `__eq__`) and the
  `SpotifyWorker` orchestrator (`_handle_command`, `_tick`,
  `_enqueue_processing_updates`, `_update_next_fetch_time`, `run`);
* `canvas/__init__.py` — the `ImageProcessor` two-entry render cache and loop;
* `canvas/text_ops.py` — `truncate_text`;
* `canvas/image_ops.py` — the theme-colour extraction pipeline.

Python floats are modelled as exact rationals (`ℚ`); `float('inf')` is the
explicit `TimeVal.inf` constructor.  Exceptions are explicit `PyErr` values;
a function that can raise returns `Except PyErr _` (or pairs the error with
the mutated state where Python mutates an attribute before raising).
-/

namespace EinkUI

/- Batteries marks the `Rat` arithmetic operations `@[irreducible]`; the
numeric claims below are settled by evaluation, so restore their default
reducibility for this development. -/
attribute [local semireducible] Rat.add Rat.mul Rat.sub Rat.inv Rat.ofScientific


/-- Python exceptions that the modelled code can raise. -/
inductive PyErr
  | attributeError (msg : String)
  | keyError (key : String)
  | timeoutError
  | exc (msg : String)
deriving DecidableEq, Repr

/-- A Python float used as a time value: either a finite value or `float('inf')`
(the default `now_playing_end_time` in `spotify.py` and the "no track end" value
in `_update_next_fetch_time`). -/
inductive TimeVal
  | fin (q : ℚ)
  | inf
deriving DecidableEq, Repr

/-- `min` on time values, as computed by Python's `min` on floats where one
operand may be `float('inf')`. -/
def TimeVal.minT : TimeVal → TimeVal → TimeVal
  | .fin a, .fin b => .fin (min a b)
  | .fin a, .inf => .fin a
  | .inf, t => t

/-- `models.SpotifyTrack`. -/
structure SpotifyTrack where
  id : String
  album_image_url : String
  song_title : String
  artists : List String
  album_title : String
  duration_ms : ℤ
deriving DecidableEq, Repr

/-- `models.SpotifyContext`. -/
structure SpotifyContext where
  uri : String
  type : String
  title : String
deriving DecidableEq, Repr

/-- `spotify.PlaybackState` (the dataclass in `spotify.py`). -/
structure PlaybackState where
  now_playing : Option SpotifyTrack
  next_up : Option SpotifyTrack
  context : Option SpotifyContext
  now_playing_end_time : TimeVal := .inf
deriving DecidableEq, Repr

/-- `spotify.PlaybackState.__eq__`, translated clause for clause: each component
comparison is `self.x.id == other.x.id if self.x and other.x else False`, and
`now_playing_end_time` is deliberately not compared. -/
def PlaybackState.beqPy (s other : PlaybackState) : Bool :=
  let now_playing_equal :=
    match s.now_playing, other.now_playing with
    | some a, some b => a.id == b.id
    | _, _ => false
  let next_up_equal :=
    match s.next_up, other.next_up with
    | some a, some b => a.id == b.id
    | _, _ => false
  let context_equal :=
    match s.context, other.context with
    | some a, some b => a.uri == b.uri
    | _, _ => false
  now_playing_equal && next_up_equal && context_equal

/-- The spec's "change fingerprint" of a playback state: the tuple
(now-playing track id or `None`, next-up track id or `None`, context URI or
`None`).  This definition follows the spec's words (§3) and is compared against
the source's `PlaybackState.beqPy`. -/
def PlaybackState.fingerprint (s : PlaybackState) :
    Option String × Option String × Option String :=
  (s.now_playing.map SpotifyTrack.id, s.next_up.map SpotifyTrack.id,
    s.context.map SpotifyContext.uri)

/-- `models.EvictingQueue`: a FIFO queue backed by `collections.deque(maxlen=maxlen)`.
The list is ordered oldest first, like the deque. -/
structure EvictingQueue (α : Type) where
  maxlen : ℕ
  deque : List α
deriving DecidableEq, Repr

/-- A fresh `EvictingQueue(maxlen)`. -/
def EvictingQueue.empty (α : Type) (maxlen : ℕ) : EvictingQueue α :=
  ⟨maxlen, []⟩

/-- `EvictingQueue.put`: `deque.append(item)` on a deque with `maxlen` set —
when the deque is at capacity the oldest (leftmost) entry is dropped before the
new item is appended.  It never blocks and never fails. -/
def EvictingQueue.put {α : Type} (q : EvictingQueue α) (item : α) : EvictingQueue α :=
  let d := q.deque ++ [item]
  ⟨q.maxlen, d.drop (d.length - q.maxlen)⟩

/-- `EvictingQueue.get` with a finite timeout: popping the leftmost item, or
raising `TimeoutError` when the queue stays empty for the whole timeout. -/
def EvictingQueue.getQ {α : Type} (q : EvictingQueue α) :
    Except PyErr (α × EvictingQueue α) :=
  match q.deque with
  | [] => .error .timeoutError
  | x :: xs => .ok (x, ⟨q.maxlen, xs⟩)

/-- Repeatedly `get` until the queue times out empty, with fuel. -/
def EvictingQueue.drainAux {α : Type} : ℕ → EvictingQueue α → List α
  | 0, _ => []
  | n + 1, q =>
    match q.getQ with
    | .error _ => []
    | .ok (x, q') => x :: drainAux n q'

/-- All items obtained by repeatedly calling `get` until `TimeoutError`. -/
def EvictingQueue.drain {α : Type} (q : EvictingQueue α) : List α :=
  EvictingQueue.drainAux q.deque.length q

theorem EvictingQueue.drainAux_eq {α : Type} (d : List α) (m : ℕ) :
    EvictingQueue.drainAux d.length ⟨m, d⟩ = d := by
  induction d with
  | nil => rfl
  | cons x xs ih => simpa [EvictingQueue.drainAux, EvictingQueue.getQ] using ih

theorem EvictingQueue.drain_eq_deque {α : Type} (q : EvictingQueue α) :
    q.drain = q.deque := EvictingQueue.drainAux_eq q.deque q.maxlen

theorem lastN_of_append {α : Type} (m : ℕ) (u : List α) :
    ∀ l : List α, m ≤ l.length →
      (u ++ l).drop ((u ++ l).length - m) = l.drop (l.length - m) := by
  induction u with
  | nil => intro l _; simp
  | cons a u ih =>
    intro l hl
    have hstep : (a :: (u ++ l)).length - m = ((u ++ l).length - m) + 1 := by
      simp only [List.length_cons, List.length_append] at *
      omega
    calc ((a :: u) ++ l).drop (((a :: u) ++ l).length - m)
        = (a :: (u ++ l)).drop (((u ++ l).length - m) + 1) := by
          rw [List.cons_append, hstep]
      _ = (u ++ l).drop ((u ++ l).length - m) := List.drop_succ_cons ..
      _ = l.drop (l.length - m) := ih l hl

theorem EvictingQueue.foldl_put_deque {α : Type} (xs : List α) (m : ℕ) (d : List α)
    (hd : d.length ≤ m) :
    (xs.foldl EvictingQueue.put ⟨m, d⟩).deque
      = (d ++ xs).drop ((d ++ xs).length - m) := by
  induction xs generalizing d with
  | nil =>
    simp only [List.foldl_nil, List.append_nil]
    have hz : d.length - m = 0 := by omega
    simp [hz]
  | cons x rest ih =>
    have hput : EvictingQueue.put ⟨m, d⟩ x
        = ⟨m, (d ++ [x]).drop ((d.length + 1) - m)⟩ := by
      simp [EvictingQueue.put]
    by_cases hcase : d.length + 1 ≤ m
    · have hz : d.length + 1 - m = 0 := by omega
      have hfull : EvictingQueue.put ⟨m, d⟩ x = ⟨m, d ++ [x]⟩ := by
        rw [hput, hz, List.drop_zero]
      have hlen2 : (d ++ [x]).length ≤ m := by
        simp only [List.length_append, List.length_singleton]; omega
      rw [List.foldl_cons, hfull, ih (d ++ [x]) hlen2]
      simp
    · set d2 := (d ++ [x]).drop ((d.length + 1) - m) with hd2
      have hlend2 : d2.length = m := by
        simp only [hd2, List.length_drop, List.length_append,
          List.length_singleton]
        omega
      have ihx := ih d2 (le_of_eq hlend2)
      rw [List.foldl_cons, hput, ihx]
      set u := (d ++ [x]).take ((d.length + 1) - m) with hu
      have hsplit : d ++ [x] = u ++ d2 := (List.take_append_drop _ _).symm
      have hmle : m ≤ (d2 ++ rest).length := by
        simp only [List.length_append, hlend2]; omega
      have hgoal := lastN_of_append m u (d2 ++ rest) hmle
      have hassoc : d ++ x :: rest = u ++ (d2 ++ rest) := by
        rw [← List.append_assoc, ← hsplit]; simp
      rw [hassoc, hgoal]

/-- Claim C4 (confirmed): for the bounded latest-wins queue of capacity `N`,
after `N + k` sequential puts (each of which is a total function — it never
blocks or fails), the queue holds exactly the last `N` items put, in their
original order, and repeatedly getting returns them oldest first. -/
theorem C4_evictingQueue_keeps_last_N {α : Type} (N k : ℕ) (xs : List α)
    (h : xs.length = N + k) :
    (xs.foldl EvictingQueue.put (EvictingQueue.empty α N)).deque = xs.drop k ∧
    (xs.foldl EvictingQueue.put (EvictingQueue.empty α N)).drain = xs.drop k := by
  have hfold := EvictingQueue.foldl_put_deque xs N [] (by simp)
  simp only [List.length_nil, List.nil_append, Nat.zero_add] at hfold
  have hk : xs.length - N = k := by omega
  rw [hk] at hfold
  refine ⟨hfold, ?_⟩
  rw [EvictingQueue.drain_eq_deque]
  exact hfold

/-- Witness for C4 at a concrete input: capacity 2, four puts. -/
theorem C4_evictingQueue_keeps_last_N_witness :
    (([10, 20, 30, 40] : List ℕ).foldl EvictingQueue.put (EvictingQueue.empty ℕ 2)).deque
        = [30, 40] ∧
    (([10, 20, 30, 40] : List ℕ).foldl EvictingQueue.put (EvictingQueue.empty ℕ 2)).drain
        = [30, 40] := by
  have h := C4_evictingQueue_keeps_last_N 2 2 ([10, 20, 30, 40] : List ℕ) (by decide)
  simpa using h

/-- The all-absent playback state: nothing playing, no upcoming track, no
context (every optional field `None`). -/
def allNoneState : PlaybackState :=
  { now_playing := none, next_up := none, context := none }

/-- Counterexample to claim C3 as stated: the all-`None` state has a
fingerprint equal to its own, yet `PlaybackState.__eq__` returns `False` on it
— so equality does not coincide with fingerprint equality. -/
theorem C3_counterexample :
    ¬ (PlaybackState.beqPy allNoneState allNoneState = true ↔
        allNoneState.fingerprint = allNoneState.fingerprint) := by
  decide

/-- Claim C3 (corrected): `PlaybackState.__eq__` returns `True` exactly when the
two change fingerprints are equal AND all three components (now-playing,
next-up, context) are present; a state with any absent component never compares
equal, even to itself.  The predicted end-time field still never affects
equality (it appears in neither side of this characterisation). -/
theorem C3_eq_iff_fingerprint_and_present (s t : PlaybackState) :
    PlaybackState.beqPy s t = true ↔
      (s.fingerprint = t.fingerprint ∧
        s.now_playing.isSome ∧ s.next_up.isSome ∧ s.context.isSome) := by
  rcases s with ⟨snp, snu, sc, se⟩
  rcases t with ⟨tnp, tnu, tc, te⟩
  rcases snp with _ | a <;> rcases tnp with _ | a' <;>
    rcases snu with _ | b <;> rcases tnu with _ | b' <;>
      rcases sc with _ | c <;> rcases tc with _ | c' <;>
        simp [PlaybackState.beqPy, PlaybackState.fingerprint, and_assoc]

/-- `models.Command` — the members the source actually defines are
NEXT, PREVIOUS, SAVE and PAUSE.  There is no `TOGGLE` member. -/
inductive Command
  | NEXT
  | PREVIOUS
  | SAVE
  | PAUSE
deriving DecidableEq, Repr

/-- `models.TrackState`. -/
inductive TrackState
  | NOW_PLAYING
  | NEXT_UP
deriving DecidableEq, Repr

/-- `models.ImageTask`.  The dataclass annotations are not enforced at runtime,
and the orchestrator builds tasks directly from the optional fields of
`PlaybackState`, so the fields are modelled as optional. -/
structure ImageTask where
  state : TrackState
  track : Option SpotifyTrack
  context : Option SpotifyContext
deriving DecidableEq, Repr

/-- `models.RenderTask`, generic over the bitmap type (the pipeline never
inspects the bitmap). -/
structure RenderTask (Img : Type) where
  track_id : String
  image : Img
deriving DecidableEq, Repr

/-- Calls the orchestrator issues against the Spotify client. -/
inductive SpotifyAction
  | next_track
  | previous_track
  | saved_tracks_add (trackId : String)
  | pause_playback
  | start_playback
deriving DecidableEq, Repr

/-- `SpotifyWorker._handle_command`, translated branch for branch, returning
the refresh flag and the issued Spotify actions.  The last branch of the
source is `elif command == Command.TOGGLE:`; since the `Command` enum in
`models.py` has no member `TOGGLE`, evaluating `Command.TOGGLE` raises
`AttributeError`.  That comparison is reached exactly when the command is none
of NEXT, PREVIOUS, SAVE — i.e. for `Command.PAUSE`, the member the button
thread actually produces.  The SAVE branch reads
`self.state.now_playing.id`, which raises `AttributeError` when `self.state`
or its `now_playing` is `None`. -/
def handleCommand (state : Option PlaybackState) :
    Command → Except PyErr (Bool × List SpotifyAction)
  | .NEXT => .ok (true, [.next_track])
  | .PREVIOUS => .ok (true, [.previous_track])
  | .SAVE =>
    match state with
    | none => .error (.attributeError "NoneType object has no attribute now_playing")
    | some s =>
      match s.now_playing with
      | none => .error (.attributeError "NoneType object has no attribute id")
      | some t => .ok (false, [.saved_tracks_add t.id])
  | .PAUSE => .error (.attributeError "type object Command has no attribute TOGGLE")

/-- The mutable attributes of `SpotifyWorker` relevant to a tick, plus the
processing queue it writes to. -/
structure OrchestratorSt where
  state : Option PlaybackState
  processing_queue : EvictingQueue ImageTask
  next_fetch_time : TimeVal
  poll_interval : ℚ
deriving DecidableEq, Repr

/-- `SpotifyWorker._enqueue_processing_updates`: builds the NOW_PLAYING and
NEXT_UP tasks from `self.state` and puts both on the processing queue, CURRENT
first.  When `self.state` is `None`, the very first attribute access
`self.state.now_playing` raises `AttributeError` before anything is
enqueued. -/
def enqueueProcessingUpdates (o : OrchestratorSt) : Except PyErr OrchestratorSt :=
  match o.state with
  | none => .error (.attributeError "NoneType object has no attribute now_playing")
  | some st =>
    let now_playing_task : ImageTask := ⟨.NOW_PLAYING, st.now_playing, st.context⟩
    let next_up_task : ImageTask := ⟨.NEXT_UP, st.next_up, st.context⟩
    .ok { o with processing_queue :=
            (o.processing_queue.put now_playing_task).put next_up_task }

/-- Python's `state != self.state` where either side may be `None`:
`None != None` is `False`, `None` against a `PlaybackState` is `True`, and two
`PlaybackState` objects compare via the handwritten `__eq__`
(`PlaybackState.beqPy`). -/
def optionStateNe : Option PlaybackState → Option PlaybackState → Bool
  | none, none => false
  | none, some _ => true
  | some _, none => true
  | some a, some b => !(a.beqPy b)

/-- `SpotifyWorker._update_next_fetch_time`: next wake is the sooner of the
predicted track end and `now + poll_interval`; with no state the track end is
`float('inf')`. -/
def updateNextFetchTime (now : ℚ) (o : OrchestratorSt) : OrchestratorSt :=
  let track_end_time : TimeVal :=
    match o.state with
    | none => .inf
    | some st => st.now_playing_end_time
  { o with next_fetch_time := track_end_time.minT (.fin (now + o.poll_interval)) }

/-- The refresh part of `SpotifyWorker._tick`: fetch the playback state, and if
it differs from the stored one under Python's `!=`, store it and enqueue the
two render requests.  Python mutates `self.state` before
`_enqueue_processing_updates` runs, so an uncaught exception is paired with the
state as mutated so far. -/
def tickRefresh (fetched : Option PlaybackState) (now : ℚ) (o : OrchestratorSt) :
    Option PyErr × OrchestratorSt :=
  if optionStateNe fetched o.state then
    let o1 := { o with state := fetched }
    match enqueueProcessingUpdates o1 with
    | .error e => (some e, o1)
    | .ok o2 => (none, updateNextFetchTime now o2)
  else (none, updateNextFetchTime now o)

/-- `SpotifyWorker._tick`.  `fetched` is what `_get_playback_state()` would
return on this tick (`none` = the provider reports nothing playing).  Returns
the uncaught exception if any, the orchestrator state as mutated so far, and
the Spotify actions issued by command handling. -/
def tick (fetched : Option PlaybackState) (now : ℚ) (command : Option Command)
    (o : OrchestratorSt) : Option PyErr × OrchestratorSt × List SpotifyAction :=
  match command with
  | none =>
    match tickRefresh fetched now o with
    | (e, o1) => (e, o1, [])
  | some c =>
    match handleCommand o.state c with
    | .error e => (some e, o, [])
    | .ok (refresh_required, acts) =>
      if refresh_required then
        match tickRefresh fetched now o with
        | (e, o1) => (e, o1, acts)
      else (none, o, acts)

/-- A concrete track for witnesses and counterexamples. -/
def trackA : SpotifyTrack :=
  ⟨"idA", "http://art/a", "Song A", ["Artist A"], "Album A", 201000⟩

/-- A second concrete track. -/
def trackB : SpotifyTrack :=
  ⟨"idB", "http://art/b", "Song B", ["Artist B"], "Album B", 202000⟩

/-- A third concrete track. -/
def trackC : SpotifyTrack :=
  ⟨"idC", "http://art/c", "Song C", ["Artist C"], "Album C", 203000⟩

/-- A concrete playlist context. -/
def ctxP : SpotifyContext := ⟨"spotify:playlist:chill", "playlist", "Chill"⟩

/-- A stored state in which a track is playing. -/
def playingState : PlaybackState := ⟨some trackA, some trackB, some ctxP, .fin 100⟩

/-- Orchestrator attributes with `playingState` stored and an empty
capacity-2 processing queue. -/
def orchPlaying : OrchestratorSt :=
  ⟨some playingState, EvictingQueue.empty ImageTask 2, .fin 100, 10⟩

/-- Orchestrator attributes with no stored state and an empty capacity-2
processing queue. -/
def orchNone : OrchestratorSt :=
  ⟨none, EvictingQueue.empty ImageTask 2, .fin 100, 10⟩

/-- Claim C1 (code bug): when the provider reports nothing playing, the tick
does store `None` and enqueues nothing, but with a previously playing state it
does not do so silently: `_tick` sets `self.state = None` and then calls
`_enqueue_processing_updates`, whose access `self.state.now_playing` raises
`AttributeError`.  Only when the previous state was already `None` does the
tick complete without raising (and without enqueueing). -/
theorem C1_tick_nothing_playing :
    (tick none 0 none orchPlaying).1
        = some (.attributeError "NoneType object has no attribute now_playing") ∧
    (tick none 0 none orchPlaying).2.1.state = none ∧
    (tick none 0 none orchPlaying).2.1.processing_queue.deque = [] ∧
    (tick none 0 none orchNone).1 = none ∧
    (tick none 0 none orchNone).2.1.state = none ∧
    (tick none 0 none orchNone).2.1.processing_queue.deque = [] := by
  refine ⟨rfl, rfl, rfl, rfl, rfl, rfl⟩

/-- Claim C5 (code bug): NEXT and PREVIOUS forward the transport action and
report that a refresh is required; SAVE acts on the collaborator and reports no
refresh; but the fourth member of the enumeration — `PAUSE`, the play/pause
toggle actually produced by the buttons — raises `AttributeError`, because the
handler compares against the nonexistent `Command.TOGGLE`. -/
theorem C5_handleCommand_eval :
    handleCommand (some playingState) .NEXT = .ok (true, [.next_track]) ∧
    handleCommand (some playingState) .PREVIOUS = .ok (true, [.previous_track]) ∧
    handleCommand (some playingState) .SAVE
        = .ok (false, [.saved_tracks_add "idA"]) ∧
    handleCommand (some playingState) .PAUSE
        = .error (.attributeError "type object Command has no attribute TOGGLE") := by
  refine ⟨rfl, rfl, rfl, rfl⟩

/-- One iteration's external inputs for `SpotifyWorker.run`: the shutdown flag
as observed at the top of the loop, the current monotonic time, the command
obtained from the command queue (`none` models the caught `queue.Empty`
timeout), and what `_get_playback_state()` would return. -/
structure OrchIter where
  shutdown : Bool
  now : ℚ
  command : Option Command
  fetched : Option PlaybackState
deriving DecidableEq, Repr

/-- How a worker loop ends. -/
inductive RunOutcome (σ : Type)
  | shutdownExit (s : σ)
  | crashed (e : PyErr) (s : σ)
  | outOfTrace (s : σ)
deriving DecidableEq, Repr

/-- `SpotifyWorker.run`, iterated over a finite trace of per-iteration inputs:
check the shutdown event; get a command (a `queue.Empty` timeout is caught and
leaves the command `None`); run `_tick`.  There is no handler around `_tick`,
so an exception it raises leaves the `while` loop. -/
def spotifyRun : OrchestratorSt → List OrchIter → RunOutcome OrchestratorSt
  | s, [] => .outOfTrace s
  | s, it :: rest =>
    if it.shutdown then .shutdownExit s
    else
      match tick it.fetched it.now it.command s with
      | (some e, s1, _) => .crashed e s1
      | (none, s1, _) => spotifyRun s1 rest

/-- The `ImageProcessor` cache plus output queue (`canvas/__init__.py`).  The
`images` list models the `OrderedDict`, oldest-inserted first. -/
structure ProcessorSt (Img : Type) where
  images : List (String × Img)
  rendering_queue : EvictingQueue (RenderTask Img)
deriving DecidableEq, Repr

/-- `ImageProcessor._get_cache_key`: the f-string builds `track.id ++ "," ++ context.uri`. -/
def getCacheKeyStr (track : SpotifyTrack) (context : SpotifyContext) : String :=
  track.id ++ "," ++ context.uri

/-- `ImageProcessor._ensure_image`.  `render` models
`Canvas.generate_image` (network fetches can fail).  On a miss the image is
inserted at the end of the `OrderedDict` (`move_to_end` on a fresh key is a
no-op) and, if more than 2 entries remain, `popitem(last=False)` removes the
first-inserted entry.  On a hit nothing changes — in particular the hit entry
is not moved. -/
def ensureImage {Img : Type} (render : SpotifyTrack → SpotifyContext → Except PyErr Img)
    (s : ProcessorSt Img) (track : SpotifyTrack) (context : SpotifyContext) :
    Except PyErr (ProcessorSt Img) :=
  let cache_id := getCacheKeyStr track context
  if cache_id ∈ s.images.map Prod.fst then .ok s
  else
    match render track context with
    | .error e => .error e
    | .ok img =>
      let imgs := s.images ++ [(cache_id, img)]
      let imgs := if imgs.length > 2 then imgs.drop 1 else imgs
      .ok { s with images := imgs }

/-- `OrderedDict.pop(key)`: remove the entry for `key` and return its value,
or fail (`KeyError`) when absent. -/
def popKey {Img : Type} : List (String × Img) → String → Option (Img × List (String × Img))
  | [], _ => none
  | (k, v) :: rest, key =>
    if k = key then some (v, rest)
    else
      match popKey rest key with
      | none => none
      | some (img, rest1) => some (img, (k, v) :: rest1)

/-- The body of one `ImageProcessor.run` iteration after a task arrived:
ensure the image exists in the cache, then for a NOW_PLAYING task pop it and
put a `RenderTask` on the rendering queue.  Python mutates `self.images` before
the pop could raise, so the error is paired with the state as mutated so
far. -/
def processTask {Img : Type} (render : SpotifyTrack → SpotifyContext → Except PyErr Img)
    (s : ProcessorSt Img) (task : ImageTask) : Option PyErr × ProcessorSt Img :=
  match task.track, task.context with
  | some track, some context =>
    match ensureImage render s track context with
    | .error e => (some e, s)
    | .ok s1 =>
      match task.state with
      | .NOW_PLAYING =>
        let cache_id := getCacheKeyStr track context
        match popKey s1.images cache_id with
        | none => (some (.keyError cache_id), s1)
        | some (image, images1) =>
          (none, ⟨images1, s1.rendering_queue.put ⟨track.id, image⟩⟩)
      | .NEXT_UP => (none, s1)
  | _, _ => (some (.attributeError "NoneType in ImageTask"), s)

/-- One iteration's inputs for `ImageProcessor.run`: the shutdown flag and the
result of `processing_queue.get(timeout=1)` (`none` models the caught
`TimeoutError`). -/
structure ProcIter where
  shutdown : Bool
  queueGet : Option ImageTask
deriving DecidableEq, Repr

/-- `ImageProcessor.run` over a finite trace: a get timeout is caught and the
loop continues; an exception from the task body is not caught and leaves the
loop. -/
def processorRun {Img : Type} (render : SpotifyTrack → SpotifyContext → Except PyErr Img) :
    ProcessorSt Img → List ProcIter → RunOutcome (ProcessorSt Img)
  | s, [] => .outOfTrace s
  | s, it :: rest =>
    if it.shutdown then .shutdownExit s
    else
      match it.queueGet with
      | none => processorRun render s rest
      | some task =>
        match processTask render s task with
        | (some e, s1) => .crashed e s1
        | (none, s1) => processorRun render s1 rest

/-- The `DisplayWorker` attributes: the deduplication id and the ids forwarded
to the physical display so far. -/
structure DisplaySt where
  current_track_id : Option String
  shown : List String
deriving DecidableEq, Repr

/-- One iteration's inputs for `DisplayWorker.run`: shutdown flag, the result
of `rendering_queue.get(timeout=1)` (`none` models the caught `TimeoutError`),
and whether the physical display calls raise (`set_image` and `show` talk to
hardware). -/
structure DispIter (Img : Type) where
  shutdown : Bool
  queueGet : Option (RenderTask Img)
  showErr : Option PyErr
deriving DecidableEq, Repr

/-- `DisplayWorker._tick`: update the display only when the track id changed;
`self.current_track_id` is assigned before the display calls. -/
def displayTick {Img : Type} (it : DispIter Img) (task : RenderTask Img)
    (s : DisplaySt) : Option PyErr × DisplaySt :=
  if s.current_track_id ≠ some task.track_id then
    let s1 : DisplaySt := { s with current_track_id := some task.track_id }
    match it.showErr with
    | some e => (some e, s1)
    | none => (none, { s1 with shown := s1.shown ++ [task.track_id] })
  else (none, s)

/-- `DisplayWorker.run` over a finite trace: a get timeout is caught and the
loop continues; an exception from `_tick` is not caught and leaves the loop. -/
def displayRun {Img : Type} : DisplaySt → List (DispIter Img) → RunOutcome DisplaySt
  | s, [] => .outOfTrace s
  | s, it :: rest =>
    if it.shutdown then .shutdownExit s
    else
      match it.queueGet with
      | none => displayRun s rest
      | some task =>
        match displayTick it task s with
        | (some e, s1) => .crashed e s1
        | (none, s1) => displayRun s1 rest

theorem spotifyRun_shutdownExit (tr : List OrchIter) :
    ∀ s s1, spotifyRun s tr = .shutdownExit s1 → ∃ it ∈ tr, it.shutdown = true := by
  induction tr with
  | nil => intro s s1 h; exact absurd h (by simp [spotifyRun])
  | cons it rest ih =>
    intro s s1 h
    cases hsd : it.shutdown with
    | true => exact ⟨it, List.mem_cons_self .., hsd⟩
    | false =>
      simp only [spotifyRun, hsd, if_neg (by decide : ¬false = true)] at h
      match htick : tick it.fetched it.now it.command s with
      | (some e, s2, acts) => exact absurd h (by simp [htick])
      | (none, s2, acts) =>
        simp only [htick] at h
        obtain ⟨it2, hmem, hflag⟩ := ih s2 s1 h
        exact ⟨it2, List.mem_cons_of_mem _ hmem, hflag⟩

theorem processorRun_shutdownExit {Img : Type}
    (render : SpotifyTrack → SpotifyContext → Except PyErr Img) (tr : List ProcIter) :
    ∀ s s1, processorRun render s tr = .shutdownExit s1 →
      ∃ it ∈ tr, it.shutdown = true := by
  induction tr with
  | nil => intro s s1 h; exact absurd h (by simp [processorRun])
  | cons it rest ih =>
    intro s s1 h
    cases hsd : it.shutdown with
    | true => exact ⟨it, List.mem_cons_self .., hsd⟩
    | false =>
      simp only [processorRun, hsd, if_neg (by decide : ¬false = true)] at h
      match hget : it.queueGet with
      | none =>
        simp only [hget] at h
        obtain ⟨it2, hmem, hflag⟩ := ih _ s1 h
        exact ⟨it2, List.mem_cons_of_mem _ hmem, hflag⟩
      | some task =>
        simp only [hget] at h
        match htask : processTask render s task with
        | (some e, s2) => exact absurd h (by simp [htask])
        | (none, s2) =>
          simp only [htask] at h
          obtain ⟨it2, hmem, hflag⟩ := ih s2 s1 h
          exact ⟨it2, List.mem_cons_of_mem _ hmem, hflag⟩

theorem displayRun_shutdownExit {Img : Type} (tr : List (DispIter Img)) :
    ∀ s s1, displayRun s tr = .shutdownExit s1 → ∃ it ∈ tr, it.shutdown = true := by
  induction tr with
  | nil => intro s s1 h; exact absurd h (by simp [displayRun])
  | cons it rest ih =>
    intro s s1 h
    cases hsd : it.shutdown with
    | true => exact ⟨it, List.mem_cons_self .., hsd⟩
    | false =>
      simp only [displayRun, hsd, if_neg (by decide : ¬false = true)] at h
      match hget : it.queueGet with
      | none =>
        simp only [hget] at h
        obtain ⟨it2, hmem, hflag⟩ := ih _ s1 h
        exact ⟨it2, List.mem_cons_of_mem _ hmem, hflag⟩
      | some task =>
        simp only [hget] at h
        match htask : displayTick it task s with
        | (some e, s2) => exact absurd h (by simp [htask])
        | (none, s2) =>
          simp only [htask] at h
          obtain ⟨it2, hmem, hflag⟩ := ih s2 s1 h
          exact ⟨it2, List.mem_cons_of_mem _ hmem, hflag⟩

/-- Counterexample to claim C2 as stated: a concrete orchestrator run in which
the shutdown signal is never set, the first iteration's tick body raises
(stored playing state, provider returns nothing playing), and the loop
terminates by that exception instead of catching it — the second iteration is
never reached. -/
theorem C2_counterexample :
    spotifyRun orchPlaying
        [⟨false, 0, none, none⟩, ⟨false, 10, none, none⟩]
      = .crashed (.attributeError "NoneType object has no attribute now_playing")
          { orchPlaying with state := none } ∧
    (∀ it ∈ [(⟨false, 0, none, none⟩ : OrchIter), ⟨false, 10, none, none⟩],
      it.shutdown = false) := by
  refine ⟨rfl, by decide⟩

/-- Claim C2 (corrected): only the blocking queue-get timeout is caught in the
worker loops — the image processor and display worker skip to the next
iteration on a get timeout, and the orchestrator proceeds into its tick with no
command; an error raised by the iteration body itself (`_tick`, task
processing, display update) is not caught and immediately terminates that
worker's loop; and a loop reaches its normal exit only when the shutdown
signal is observed set. -/
theorem C2_loops_amended {Img : Type}
    (render : SpotifyTrack → SpotifyContext → Except PyErr Img) :
    (∀ (tr : List OrchIter) (s s1 : OrchestratorSt),
      spotifyRun s tr = .shutdownExit s1 → ∃ it ∈ tr, it.shutdown = true) ∧
    (∀ (tr : List ProcIter) (s s1 : ProcessorSt Img),
      processorRun render s tr = .shutdownExit s1 → ∃ it ∈ tr, it.shutdown = true) ∧
    (∀ (tr : List (DispIter Img)) (s s1 : DisplaySt),
      displayRun s tr = .shutdownExit s1 → ∃ it ∈ tr, it.shutdown = true) ∧
    (∀ (s : ProcessorSt Img) (rest : List ProcIter),
      processorRun render s (⟨false, none⟩ :: rest) = processorRun render s rest) ∧
    (∀ (s : DisplaySt) (rest : List (DispIter Img)) (showErr : Option PyErr),
      displayRun s (⟨false, none, showErr⟩ :: rest) = displayRun s rest) ∧
    (∀ (s s1 : OrchestratorSt) (it : OrchIter) (rest : List OrchIter) (e : PyErr)
        (acts : List SpotifyAction),
      it.shutdown = false → tick it.fetched it.now it.command s = (some e, s1, acts) →
      spotifyRun s (it :: rest) = .crashed e s1) ∧
    (∀ (s s1 : ProcessorSt Img) (task : ImageTask) (rest : List ProcIter) (e : PyErr),
      processTask render s task = (some e, s1) →
      processorRun render s (⟨false, some task⟩ :: rest) = .crashed e s1) ∧
    (∀ (s s1 : DisplaySt) (it : DispIter Img) (task : RenderTask Img)
        (rest : List (DispIter Img)) (e : PyErr),
      it.shutdown = false → it.queueGet = some task →
      displayTick it task s = (some e, s1) →
      displayRun s (it :: rest) = .crashed e s1) := by
  refine ⟨spotifyRun_shutdownExit, processorRun_shutdownExit render,
    displayRun_shutdownExit, ?_, ?_, ?_, ?_, ?_⟩
  · intro s rest; simp [processorRun]
  · intro s rest showErr; simp [displayRun]
  · intro s s1 it rest e acts hflag htick
    simp only [spotifyRun, hflag, htick]
    rw [if_neg (by decide : ¬false = true)]
  · intro s s1 task rest e htask
    simp only [processorRun, htask]
    rw [if_neg (by decide : ¬false = true)]
  · intro s s1 it task rest e hflag hget htick
    simp only [displayRun, hflag, hget, htick]
    rw [if_neg (by decide : ¬false = true)]

/-- A trivial render oracle over natural-number bitmaps, for the witness. -/
def renderZero : SpotifyTrack → SpotifyContext → Except PyErr ℕ := fun _ _ => .ok 0

/-- Witness for C2: the amended theorem applied at concrete inputs — a
shutdown exit whose trace indeed contains a set shutdown flag, a processor
get-timeout iteration that continues, and a crashing orchestrator iteration. -/
theorem C2_loops_amended_witness :
    (∃ it ∈ [(⟨true, 0, none, none⟩ : OrchIter)], it.shutdown = true) ∧
    processorRun renderZero ⟨[], EvictingQueue.empty _ 1⟩
        [⟨false, none⟩] = .outOfTrace ⟨[], EvictingQueue.empty _ 1⟩ ∧
    spotifyRun orchPlaying [⟨false, 0, none, none⟩]
      = .crashed (.attributeError "NoneType object has no attribute now_playing")
          { orchPlaying with state := none } := by
  refine ⟨?_, ?_, ?_⟩
  · exact (C2_loops_amended renderZero).1
      [⟨true, 0, none, none⟩] orchPlaying orchPlaying rfl
  · rw [(C2_loops_amended renderZero).2.2.2.1
      ⟨[], EvictingQueue.empty _ 1⟩ []]
    rfl
  · exact (C2_loops_amended renderZero).2.2.2.2.2.1
      orchPlaying { orchPlaying with state := none } ⟨false, 0, none, none⟩ [] _ []
      rfl rfl

theorem popKey_some_length {Img : Type} :
    ∀ (l : List (String × Img)) (key : String) (v : Img) (l1 : List (String × Img)),
      popKey l key = some (v, l1) → l1.length + 1 = l.length := by
  intro l
  induction l with
  | nil => intro key v l1 h; exact absurd h (by simp [popKey])
  | cons p rest ih =>
    intro key v l1 h
    obtain ⟨k, w⟩ := p
    by_cases hk : k = key
    · simp only [popKey, hk, if_pos rfl] at h
      injection h with h1
      injection h1 with h2 h3
      subst h3
      simp
    · simp only [popKey, if_neg hk] at h
      match hrec : popKey rest key with
      | none => simp [hrec] at h
      | some (img, rest1) =>
        simp only [hrec] at h
        injection h with h1
        injection h1 with h2 h3
        subst h3
        have := ih key img rest1 hrec
        simp only [List.length_cons]
        omega

theorem popKey_of_mem {Img : Type} :
    ∀ (l : List (String × Img)) (key : String), key ∈ l.map Prod.fst →
      ∃ v l1, popKey l key = some (v, l1) := by
  intro l
  induction l with
  | nil => intro key h; simp at h
  | cons p rest ih =>
    intro key h
    obtain ⟨k, w⟩ := p
    by_cases hk : k = key
    · exact ⟨w, rest, by simp [popKey, hk]⟩
    · have hmem : key ∈ rest.map Prod.fst := by
        simp only [List.map_cons, List.mem_cons] at h
        exact h.resolve_left (fun hh => hk hh.symm)
      obtain ⟨v, l1, hrec⟩ := ih key hmem
      exact ⟨v, (k, w) :: l1, by simp [popKey, hk, hrec]⟩

theorem popKey_not_mem {Img : Type} :
    ∀ (l : List (String × Img)) (key : String) (v : Img) (l1 : List (String × Img)),
      (l.map Prod.fst).Nodup → popKey l key = some (v, l1) →
        key ∉ l1.map Prod.fst := by
  intro l
  induction l with
  | nil => intro key v l1 _ h; exact absurd h (by simp [popKey])
  | cons p rest ih =>
    intro key v l1 hnd h
    obtain ⟨k, w⟩ := p
    simp only [List.map_cons, List.nodup_cons] at hnd
    by_cases hk : k = key
    · simp only [popKey, hk, if_pos rfl] at h
      injection h with h1
      injection h1 with h2 h3
      subst h3
      exact hk ▸ hnd.1
    · simp only [popKey, if_neg hk] at h
      match hrec : popKey rest key with
      | none => simp [hrec] at h
      | some (img, rest1) =>
        simp only [hrec] at h
        injection h with h1
        injection h1 with h2 h3
        subst h3
        have hnotin := ih key img rest1 hnd.2 hrec
        simp only [List.map_cons, List.mem_cons]
        rintro (hkey | hkey)
        · exact hk hkey.symm
        · exact hnotin hkey

theorem ensureImage_hit {Img : Type}
    (render : SpotifyTrack → SpotifyContext → Except PyErr Img)
    (s : ProcessorSt Img) (track : SpotifyTrack) (context : SpotifyContext)
    (hmem : getCacheKeyStr track context ∈ s.images.map Prod.fst) :
    ensureImage render s track context = .ok s := by
  simp [ensureImage, hmem]

theorem ensureImage_miss {Img : Type}
    (render : SpotifyTrack → SpotifyContext → Except PyErr Img)
    (s : ProcessorSt Img) (track : SpotifyTrack) (context : SpotifyContext)
    (img : Img)
    (hmem : getCacheKeyStr track context ∉ s.images.map Prod.fst)
    (hrender : render track context = .ok img) :
    ensureImage render s track context
      = .ok { s with images :=
          if (s.images ++ [(getCacheKeyStr track context, img)]).length > 2
          then (s.images ++ [(getCacheKeyStr track context, img)]).drop 1
          else s.images ++ [(getCacheKeyStr track context, img)] } := by
  simp [ensureImage, hmem, hrender]

theorem ensureImage_ok_mem {Img : Type}
    (render : SpotifyTrack → SpotifyContext → Except PyErr Img)
    (s s1 : ProcessorSt Img) (track : SpotifyTrack) (context : SpotifyContext)
    (h : ensureImage render s track context = .ok s1) :
    getCacheKeyStr track context ∈ s1.images.map Prod.fst := by
  by_cases hmem : getCacheKeyStr track context ∈ s.images.map Prod.fst
  · rw [ensureImage_hit render s track context hmem] at h
    simp only [Except.ok.injEq] at h
    subst h
    exact hmem
  · match hr : render track context with
    | .error e => simp [ensureImage, hmem, hr] at h
    | .ok img =>
      rw [ensureImage_miss render s track context img hmem hr] at h
      simp only [Except.ok.injEq] at h
      subst h
      show getCacheKeyStr track context ∈
        (if (s.images ++ [(getCacheKeyStr track context, img)]).length > 2
          then (s.images ++ [(getCacheKeyStr track context, img)]).drop 1
          else s.images ++ [(getCacheKeyStr track context, img)]).map Prod.fst
      by_cases hlen : (s.images ++ [(getCacheKeyStr track context, img)]).length > 2
      · rw [if_pos hlen]
        match hsi : s.images with
        | [] => rw [hsi] at hlen; simp at hlen
        | p :: others => simp
      · rw [if_neg hlen]
        simp

theorem ensureImage_ok_length {Img : Type}
    (render : SpotifyTrack → SpotifyContext → Except PyErr Img)
    (s s1 : ProcessorSt Img) (track : SpotifyTrack) (context : SpotifyContext)
    (h2 : s.images.length ≤ 2)
    (h : ensureImage render s track context = .ok s1) :
    s1.images.length ≤ 2 := by
  by_cases hmem : getCacheKeyStr track context ∈ s.images.map Prod.fst
  · rw [ensureImage_hit render s track context hmem] at h
    simp only [Except.ok.injEq] at h
    subst h
    exact h2
  · match hr : render track context with
    | .error e => simp [ensureImage, hmem, hr] at h
    | .ok img =>
      rw [ensureImage_miss render s track context img hmem hr] at h
      simp only [Except.ok.injEq] at h
      subst h
      show (if (s.images ++ [(getCacheKeyStr track context, img)]).length > 2
          then (s.images ++ [(getCacheKeyStr track context, img)]).drop 1
          else s.images ++ [(getCacheKeyStr track context, img)]).length ≤ 2
      by_cases hlen : (s.images ++ [(getCacheKeyStr track context, img)]).length > 2
      · rw [if_pos hlen]
        simp only [List.length_drop, List.length_append, List.length_singleton]
        omega
      · rw [if_neg hlen]
        simp only [List.length_append, List.length_singleton, gt_iff_lt,
          not_lt] at hlen
        simp only [List.length_append, List.length_singleton]
        omega

theorem ensureImage_ok_nodup {Img : Type}
    (render : SpotifyTrack → SpotifyContext → Except PyErr Img)
    (s s1 : ProcessorSt Img) (track : SpotifyTrack) (context : SpotifyContext)
    (hnd : (s.images.map Prod.fst).Nodup)
    (h : ensureImage render s track context = .ok s1) :
    (s1.images.map Prod.fst).Nodup := by
  by_cases hmem : getCacheKeyStr track context ∈ s.images.map Prod.fst
  · rw [ensureImage_hit render s track context hmem] at h
    simp only [Except.ok.injEq] at h
    subst h
    exact hnd
  · match hr : render track context with
    | .error e => simp [ensureImage, hmem, hr] at h
    | .ok img =>
      rw [ensureImage_miss render s track context img hmem hr] at h
      simp only [Except.ok.injEq] at h
      subst h
      have hdisj : (s.images.map Prod.fst).Disjoint [getCacheKeyStr track context] := by
        intro a ha hb
        rw [List.mem_singleton] at hb
        exact hmem (hb ▸ ha)
      have hndapp : ((s.images ++ [(getCacheKeyStr track context, img)]).map
          Prod.fst).Nodup := by
        simp only [List.map_append, List.map_cons, List.map_nil]
        exact List.Nodup.append hnd (List.nodup_singleton _) hdisj
      show ((if (s.images ++ [(getCacheKeyStr track context, img)]).length > 2
          then (s.images ++ [(getCacheKeyStr track context, img)]).drop 1
          else s.images ++ [(getCacheKeyStr track context, img)]).map Prod.fst).Nodup
      by_cases hlen : (s.images ++ [(getCacheKeyStr track context, img)]).length > 2
      · rw [if_pos hlen]
        have hsub : ((s.images ++ [(getCacheKeyStr track context, img)]).drop 1).Sublist
            (s.images ++ [(getCacheKeyStr track context, img)]) := List.drop_sublist ..
        exact List.Nodup.sublist (List.Sublist.map Prod.fst hsub) hndapp
      · rw [if_neg hlen]
        exact hndapp

/-- Modelled from the spec: the claim's LRU discipline for the two-entry cache
— every use of a key (hit or insertion) makes it most-recently-used, and an
insertion that would exceed 2 entries evicts the least-recently-used entry.
This is the comparison model for claim C9; the source's `ensureImage` is
compared against it. -/
def lruUse {Img : Type} (l : List (String × Img)) (key : String) (img : Img) :
    List (String × Img) :=
  match popKey l key with
  | some (oldImg, rest) => rest ++ [(key, oldImg)]
  | none =>
    let l2 := l ++ [(key, img)]
    if l2.length > 2 then l2.drop 1 else l2

/-- Cache key of track A in the playlist context. -/
def keyA : String := getCacheKeyStr trackA ctxP

/-- Cache key of track B in the playlist context. -/
def keyB : String := getCacheKeyStr trackB ctxP

/-- Cache key of track C in the playlist context. -/
def keyC : String := getCacheKeyStr trackC ctxP

/-- A render oracle that always succeeds, producing the track id as the
"bitmap". -/
def renderById : SpotifyTrack → SpotifyContext → Except PyErr String :=
  fun t _ => .ok t.id

/-- An empty `ImageProcessor` state with a capacity-1 rendering queue. -/
def procEmpty : ProcessorSt String := ⟨[], EvictingQueue.empty (RenderTask String) 1⟩

/-- Counterexample to claim C9 as stated: process UPCOMING requests for A, B,
A again (a cache hit — a use of A), then C.  At C's insertion the cache holds
A and B with B least recently used, yet the code evicts A: the final cache
keys are [B, C], whereas the spec's LRU discipline (`lruUse`) yields [A, C].
The at-most-2 bound itself does hold (see the amended theorem). -/
theorem C9_counterexample :
    ((processTask renderById
        (processTask renderById
          (processTask renderById
            (processTask renderById procEmpty ⟨.NEXT_UP, some trackA, some ctxP⟩).2
            ⟨.NEXT_UP, some trackB, some ctxP⟩).2
          ⟨.NEXT_UP, some trackA, some ctxP⟩).2
        ⟨.NEXT_UP, some trackC, some ctxP⟩).2).images.map Prod.fst
      = [keyB, keyC] ∧
    (lruUse (lruUse (lruUse (lruUse ([] : List (String × String))
        keyA "idA") keyB "idB") keyA "idA") keyC "idC").map Prod.fst
      = [keyA, keyC] ∧
    keyA ≠ keyB := by
  refine ⟨by decide, by decide, by decide⟩

/-- Claim C9 (corrected): the render cache holds at most 2 entries after every
processed request, and when an insertion occurs with 2 entries present the
evicted entry is the first-inserted one (the front of the `OrderedDict`'s
insertion order); a cache hit does not refresh an entry's position, so the
discipline is insertion-order FIFO rather than least-recently-used. -/
theorem C9_cache_amended {Img : Type}
    (render : SpotifyTrack → SpotifyContext → Except PyErr Img) :
    (∀ (s : ProcessorSt Img) (task : ImageTask), s.images.length ≤ 2 →
      ((processTask render s task).2).images.length ≤ 2) ∧
    (∀ (s : ProcessorSt Img) (track : SpotifyTrack) (context : SpotifyContext)
        (img : Img),
      getCacheKeyStr track context ∉ s.images.map Prod.fst →
      s.images.length = 2 → render track context = .ok img →
      ensureImage render s track context
        = .ok { s with images :=
            s.images.drop 1 ++ [(getCacheKeyStr track context, img)] }) ∧
    (∀ (s : ProcessorSt Img) (track : SpotifyTrack) (context : SpotifyContext),
      getCacheKeyStr track context ∈ s.images.map Prod.fst →
      ensureImage render s track context = .ok s) := by
  refine ⟨?_, ?_, ?_⟩
  · intro s task h2
    rcases task with ⟨st, tr, ctx⟩
    match tr, ctx with
    | none, _ => simpa [processTask] using h2
    | some track, none => simpa [processTask] using h2
    | some track, some context =>
      simp only [processTask]
      match hens : ensureImage render s track context with
      | .error e => simp only [hens]; exact h2
      | .ok s1 =>
        simp only [hens]
        have h1 := ensureImage_ok_length render s s1 track context h2 hens
        match st with
        | .NEXT_UP => simpa using h1
        | .NOW_PLAYING =>
          match hpop : popKey s1.images (getCacheKeyStr track context) with
          | none => simp only [hpop]; exact h1
          | some (image, images1) =>
            simp only [hpop]
            have hlen := popKey_some_length s1.images _ image images1 hpop
            show images1.length ≤ 2
            omega
  · intro s track context img hmem h2 hrender
    rw [ensureImage_miss render s track context img hmem hrender]
    have hlen : (s.images ++ [(getCacheKeyStr track context, img)]).length > 2 := by
      simp [h2]
    rw [if_pos hlen, List.drop_append_of_le_length (by omega)]
  · intro s track context hmem
    exact ensureImage_hit render s track context hmem

/-- Witness for C9's amended theorem at concrete inputs: a full cache receives
a new key and evicts its front entry; a hit leaves the cache unchanged; the
bound is preserved. -/
theorem C9_cache_amended_witness :
    ((processTask renderById ⟨[(keyA, "idA"), (keyB, "idB")],
        EvictingQueue.empty (RenderTask String) 1⟩
        ⟨.NEXT_UP, some trackC, some ctxP⟩).2).images.length ≤ 2 ∧
    ensureImage renderById ⟨[(keyA, "idA"), (keyB, "idB")],
        EvictingQueue.empty (RenderTask String) 1⟩ trackC ctxP
      = .ok ⟨[(keyB, "idB"), (keyC, "idC")], EvictingQueue.empty (RenderTask String) 1⟩ ∧
    ensureImage renderById ⟨[(keyA, "idA"), (keyB, "idB")],
        EvictingQueue.empty (RenderTask String) 1⟩ trackA ctxP
      = .ok ⟨[(keyA, "idA"), (keyB, "idB")], EvictingQueue.empty (RenderTask String) 1⟩ := by
  refine ⟨?_, ?_, ?_⟩
  · exact (C9_cache_amended renderById).1
      ⟨[(keyA, "idA"), (keyB, "idB")], EvictingQueue.empty (RenderTask String) 1⟩
      ⟨.NEXT_UP, some trackC, some ctxP⟩ (by decide)
  · have h := (C9_cache_amended renderById).2.1
      ⟨[(keyA, "idA"), (keyB, "idB")], EvictingQueue.empty (RenderTask String) 1⟩
      trackC ctxP "idC" (by decide) (by decide) rfl
    simpa [keyC] using h
  · exact (C9_cache_amended renderById).2.2
      ⟨[(keyA, "idA"), (keyB, "idB")], EvictingQueue.empty (RenderTask String) 1⟩
      trackA ctxP (by decide)

/-- Claim C10 (confirmed): for a NOW_PLAYING request whose ensure-image step
completes, the cache necessarily contains the request's key afterwards (the
just-ensured entry is never the one evicted, since eviction removes the front
and the fresh entry sits at the back), so the subsequent pop succeeds — no
missing-key error — exactly one frame is put on the rendering queue, and the
key is afterwards absent from the cache. -/
theorem C10_now_playing_emits {Img : Type}
    (render : SpotifyTrack → SpotifyContext → Except PyErr Img)
    (s s1 : ProcessorSt Img) (track : SpotifyTrack) (context : SpotifyContext)
    (hnd : (s.images.map Prod.fst).Nodup)
    (hens : ensureImage render s track context = .ok s1) :
    ∃ img images1,
      popKey s1.images (getCacheKeyStr track context) = some (img, images1) ∧
      processTask render s ⟨.NOW_PLAYING, some track, some context⟩
        = (none, ⟨images1, s1.rendering_queue.put ⟨track.id, img⟩⟩) ∧
      getCacheKeyStr track context ∉ images1.map Prod.fst ∧
      s1.rendering_queue = s.rendering_queue := by
  have hmem := ensureImage_ok_mem render s s1 track context hens
  obtain ⟨img, images1, hpop⟩ := popKey_of_mem s1.images _ hmem
  have hnd1 := ensureImage_ok_nodup render s s1 track context hnd hens
  refine ⟨img, images1, hpop, ?_, popKey_not_mem s1.images _ img images1 hnd1 hpop, ?_⟩
  · simp only [processTask, hens, hpop]
  · by_cases hin : getCacheKeyStr track context ∈ s.images.map Prod.fst
    · rw [ensureImage_hit render s track context hin] at hens
      simp only [Except.ok.injEq] at hens
      subst hens
      rfl
    · match hr : render track context with
      | .error e => simp [ensureImage, hin, hr] at hens
      | .ok im =>
        rw [ensureImage_miss render s track context im hin hr] at hens
        simp only [Except.ok.injEq] at hens
        subst hens
        rfl

/-- Witness for C10 at a concrete input: an empty cache, a NOW_PLAYING request
for track A — ensure inserts, the pop succeeds, one frame is emitted, and the
key is gone. -/
theorem C10_now_playing_emits_witness :
    ∃ img images1,
      popKey ([(keyA, "idA")] : List (String × String)) (getCacheKeyStr trackA ctxP)
        = some (img, images1) ∧
      processTask renderById procEmpty ⟨.NOW_PLAYING, some trackA, some ctxP⟩
        = (none, ⟨images1, (EvictingQueue.empty (RenderTask String) 1).put
            ⟨trackA.id, img⟩⟩) ∧
      getCacheKeyStr trackA ctxP ∉ images1.map Prod.fst ∧
      (EvictingQueue.empty (RenderTask String) 1)
        = (procEmpty : ProcessorSt String).rendering_queue := by
  exact C10_now_playing_emits renderById procEmpty
      ⟨[(keyA, "idA")], EvictingQueue.empty (RenderTask String) 1⟩ trackA ctxP
      (by decide) rfl

/-- The ellipsis literal appended by `truncate_text`. -/
def ellipsisStr : String := "..."

/-- Python `int()` on an exact rational: truncation toward zero. -/
def pyInt (q : ℚ) : ℤ := Int.tdiv q.num (q.den : ℤ)

/-- Python slicing `text[:k]` for an integer `k`, which may be negative
(`text[:-n]` drops the last `n` characters, clamping at the empty string). -/
def pySlice (l : List Char) (k : ℤ) : List Char :=
  if 0 ≤ k then l.take k.toNat else l.take (l.length - (-k).toNat)

/-- The correction loop of `truncate_text`: repeatedly drop the last character
while `truncated + "..."` measures wider than `max_width`, then return
`truncated + "..."`.  The result is `none` when the loop never exits, which
can happen only if the bare ellipsis itself overflows `max_width` (the loop
leaves the empty string unchanged forever). -/
def truncLoop (w : String → ℚ) (maxW : ℚ) : List Char → Option String
  | [] => if w ellipsisStr ≤ maxW then some ellipsisStr else none
  | c :: cs =>
    if w (String.mk (c :: cs) ++ ellipsisStr) ≤ maxW then
      some (String.mk (c :: cs) ++ ellipsisStr)
    else truncLoop w maxW (c :: cs).dropLast
termination_by t => t.length
decreasing_by
  simp only [List.length_dropLast, List.length_cons]
  omega

/-- `canvas/text_ops.truncate_text`, with the PIL text measurer abstracted as
`w`.  If the text already fits it is returned unchanged; otherwise an estimated
character count `int(len(text) * (max_width / text_length)) - 4` is kept and
the correction loop trims further.  `none` models nontermination of the
loop. -/
def truncate_text (w : String → ℚ) (text : String) (maxW : ℚ) : Option String :=
  let text_length := w text
  if text_length ≤ maxW then some text
  else
    let characters_to_keep : ℤ :=
      pyInt ((text.length : ℚ) * (maxW / text_length)) - 4
    truncLoop w maxW (pySlice text.toList characters_to_keep)

theorem truncLoop_ok (w : String → ℚ) (maxW : ℚ)
    (hell : w ellipsisStr ≤ maxW) :
    ∀ (n : ℕ) (t : List Char), t.length ≤ n →
      ∃ r, truncLoop w maxW t = some r ∧
        (∃ p : String, r = p ++ ellipsisStr) ∧ w r ≤ maxW := by
  intro n
  induction n with
  | zero =>
    intro t ht
    have : t = [] := List.length_eq_zero.mp (Nat.le_zero.mp ht)
    subst this
    refine ⟨ellipsisStr, ?_, ⟨"", rfl⟩, hell⟩
    simp only [truncLoop, if_pos hell]
  | succ n ih =>
    intro t ht
    match t with
    | [] =>
      refine ⟨ellipsisStr, ?_, ⟨"", rfl⟩, hell⟩
      simp only [truncLoop, if_pos hell]
    | c :: cs =>
      by_cases hfit : w (String.mk (c :: cs) ++ ellipsisStr) ≤ maxW
      · exact ⟨String.mk (c :: cs) ++ ellipsisStr,
          by rw [truncLoop, if_pos hfit], ⟨String.mk (c :: cs), rfl⟩, hfit⟩
      · have hlen : (c :: cs).dropLast.length ≤ n := by
          simp only [List.length_dropLast, List.length_cons]
          simp only [List.length_cons] at ht
          omega
        obtain ⟨r, hr, hsuf, hwr⟩ := ih (c :: cs).dropLast hlen
        exact ⟨r, by rw [truncLoop, if_neg hfit]; exact hr, hsuf, hwr⟩

/-- Claim C7 (confirmed): whenever the measured widths are nonnegative (as PIL
text lengths are) and the bare ellipsis fits within `max_width`, `truncate_text`
terminates; a text that already fits is returned unchanged, and otherwise the
result ends in "..." and measures within `max_width`. -/
theorem C7_truncate_text (w : String → ℚ) (text : String) (maxW : ℚ)
    (hw : ∀ s, 0 ≤ w s) (hell : w ellipsisStr ≤ maxW) :
    ∃ r, truncate_text w text maxW = some r ∧
      (w text ≤ maxW → r = text) ∧
      (maxW < w text → (∃ p : String, r = p ++ ellipsisStr) ∧ w r ≤ maxW) := by
  by_cases hfit : w text ≤ maxW
  · refine ⟨text, ?_, fun _ => rfl, fun hlt => absurd hfit (not_le.mpr hlt)⟩
    simp only [truncate_text, if_pos hfit]
  · obtain ⟨r, hr, hsuf, hwr⟩ := truncLoop_ok w maxW hell
      (pySlice text.toList (pyInt ((text.length : ℚ) * (maxW / w text)) - 4)).length
      (pySlice text.toList (pyInt ((text.length : ℚ) * (maxW / w text)) - 4)) le_rfl
    refine ⟨r, ?_, fun h => absurd h hfit, fun _ => ⟨hsuf, hwr⟩⟩
    simp only [truncate_text, if_neg hfit]
    exact hr

/-- Witness for C7 at a concrete input: the character-count width, max width 5,
and the text "abcdefgh" — truncated to "a...". -/
theorem C7_truncate_text_witness :
    (∀ s : String, 0 ≤ ((s.length : ℚ))) ∧
    ((ellipsisStr.length : ℚ)) ≤ 5 ∧
    ∃ r, truncate_text (fun s => ((s.length : ℚ))) "abcdefgh" 5 = some r ∧
      (((("abcdefgh" : String).length : ℚ)) ≤ 5 → r = "abcdefgh") ∧
      ((5 : ℚ) < ((("abcdefgh" : String).length : ℚ)) →
        (∃ p : String, r = p ++ ellipsisStr) ∧ ((r.length : ℚ)) ≤ 5) := by
  refine ⟨fun s => Nat.cast_nonneg _, by norm_num [ellipsisStr]; decide, ?_⟩
  exact C7_truncate_text (fun s => ((s.length : ℚ))) "abcdefgh" 5
    (fun s => Nat.cast_nonneg _) (by norm_num [ellipsisStr]; decide)

/-- Dyadic precision of the float-power model: fractional powers are computed
on the grid `1 / fpScale`.  Every comparison `get_theme_colour` makes has a
margin far above this resolution. -/
def fpScale : ℕ := 2 ^ 24

/-- Binary search for the integer n-th root, with explicit fuel.  Maintains
`lo ^ n ≤ x < hi ^ n`. -/
def natNthRootAux (n x : ℕ) : ℕ → ℕ → ℕ → ℕ
  | 0, lo, _ => lo
  | fuel + 1, lo, hi =>
    if hi ≤ lo + 1 then lo
    else
      let mid := (lo + hi) / 2
      if mid ^ n ≤ x then natNthRootAux n x fuel mid hi
      else natNthRootAux n x fuel lo mid

/-- The largest `r` with `r ^ n ≤ x` (for `n ≥ 1`); the fuel covers every
magnitude the pipeline produces. -/
def natNthRoot (n x : ℕ) : ℕ :=
  natNthRootAux n x 512 0 (x + 1)

/-- `q ** (1/n)` for a rational, rounded down to the dyadic grid — the model of
a float fractional power (nonpositive bases, which numpy would turn into nan,
are sent to 0; they never occur on the paths the claims exercise). -/
def qNthRoot (q : ℚ) (n : ℕ) : ℚ :=
  if q ≤ 0 then 0
  else (natNthRoot n (q * (fpScale : ℚ) ^ n).floor.toNat : ℚ) / (fpScale : ℚ)

/-- The model of the float power `v ** (num/den)`. -/
def qPowFloat (v : ℚ) (num den : ℕ) : ℚ := qNthRoot (v ^ num) den

/-- The model of `np.sqrt`: the dyadic square root via the integer root. -/
def ratSqrt (q : ℚ) : ℚ :=
  if q ≤ 0 then 0
  else (natNthRoot 2 (q * (fpScale : ℚ) ^ 2).floor.toNat : ℚ) / (fpScale : ℚ)

/-- A triple of floats: an RGB pixel (0..1) or a Lab colour. -/
structure V3 where
  x : ℚ
  y : ℚ
  z : ℚ
deriving DecidableEq, Repr

/-- `np.clip(c, 0, 1)`. -/
def clip01 (c : ℚ) : ℚ := max 0 (min 1 c)

/-- The inverse-sRGB-gamma step of `rgb_to_lab` (`rgb_pixels > 0.04045`
branchwise, mutating the pixel array in place). -/
def srgbInvGamma (c : ℚ) : ℚ :=
  if 0.04045 < c then qPowFloat ((c + 0.055) / 1.055) 12 5 else c / 12.92

/-- One pixel of the in-place linearisation performed by `rgb_to_lab`. -/
def linearizeRGB (p : V3) : V3 := ⟨srgbInvGamma p.x, srgbInvGamma p.y, srgbInvGamma p.z⟩

/-- The Lab compression function applied to normalised XYZ. -/
def labF (t : ℚ) : ℚ := if 0.008856 < t then qPowFloat t 1 3 else 7.787 * t + 16 / 116

/-- The XYZ/Lab part of `rgb_to_lab`, applied to one linearised pixel. -/
def linearToLab (p : V3) : V3 :=
  let X := 0.4124 * p.x + 0.3576 * p.y + 0.1805 * p.z
  let Y := 0.2126 * p.x + 0.7152 * p.y + 0.0722 * p.z
  let Z := 0.0193 * p.x + 0.1192 * p.y + 0.9505 * p.z
  let fx := labF (X / 0.95047)
  let fy := labF Y
  let fz := labF (Z / 1.08883)
  ⟨116 * fy - 16, 500 * (fx - fy), 200 * (fy - fz)⟩

/-- `image_ops.rgb_to_lab` on one pixel. -/
def rgb_to_lab (p : V3) : V3 := linearToLab (linearizeRGB p)

/-- The inverse Lab compression used by `lab_to_rgb`. -/
def labFInv (t : ℚ) : ℚ := if 0.20689 < t then t ^ 3 else (t - 16 / 116) / 7.787

/-- The sRGB gamma-encoding step of `lab_to_rgb`. -/
def srgbGamma (c : ℚ) : ℚ :=
  if 0.0031308 < c then 1.055 * qPowFloat c 5 12 - 0.055 else 12.92 * c

/-- `image_ops.lab_to_rgb` on one colour, including its final
`np.clip(rgb, 0, 1)`. -/
def lab_to_rgb (lab : V3) : V3 :=
  let y := (lab.x + 16) / 116
  let x := lab.y / 500 + y
  let z := y - lab.z / 200
  let X := labFInv x * 0.95047
  let Y := labFInv y
  let Z := labFInv z * 1.08883
  let r := 3.2406 * X - 1.5372 * Y - 0.4986 * Z
  let g := (-0.9689) * X + 1.8758 * Y + 0.0415 * Z
  let b := 0.0557 * X - 0.2040 * Y + 1.0570 * Z
  ⟨clip01 (srgbGamma r), clip01 (srgbGamma g), clip01 (srgbGamma b)⟩

/-- The channel linearisation inside `contrast_ratio_with_white`
(`np.where(c <= 0.04045, c / 12.92, ((c + 0.055) / 1.055) ** 2.4)`). -/
def srgb_channel_to_linear (c : ℚ) : ℚ :=
  if c ≤ 0.04045 then c / 12.92 else qPowFloat ((c + 0.055) / 1.055) 12 5

/-- `image_ops.contrast_ratio_with_white`. -/
def contrast_ratio_with_white (rgb : V3) : ℚ :=
  let rl := srgb_channel_to_linear rgb.x
  let gl := srgb_channel_to_linear rgb.y
  let bl := srgb_channel_to_linear rgb.z
  let luminance := 0.2126 * rl + 0.7152 * gl + 0.0722 * bl
  (1 + 0.05) / (luminance + 0.05)

/-- The contrast ratio of an 8-bit colour against white, as the spec states
it: `1.05 / (relative_luminance + 0.05)` with the source's channel
linearisation. -/
def contrast_of_rgb255 (c : ℤ × ℤ × ℤ) : ℚ :=
  contrast_ratio_with_white ⟨(c.1 : ℚ) / 255, (c.2.1 : ℚ) / 255, (c.2.2 : ℚ) / 255⟩

/-- The loop of `ensure_white_text_contrast_lab`: darken L* (step `step`, floor
`min_luminance`, at most 200 iterations) until the white contrast meets the
threshold; on reaching the floor, return without a final test. -/
def ensureLoop (a b min_contrast step min_luminance : ℚ) : ℕ → ℚ → ℚ
  | 0, luminance => luminance
  | fuel + 1, luminance =>
    let rgb := lab_to_rgb ⟨luminance, a, b⟩
    let rgb : V3 := ⟨clip01 rgb.x, clip01 rgb.y, clip01 rgb.z⟩
    if min_contrast ≤ contrast_ratio_with_white rgb then luminance
    else
      let lum2 := max min_luminance (luminance - step)
      if lum2 ≤ min_luminance then lum2
      else ensureLoop a b min_contrast step min_luminance fuel lum2

/-- `image_ops.ensure_white_text_contrast_lab` with its default step 1.0 and
floor 0.0. -/
def ensure_white_text_contrast_lab (lab : V3) (min_contrast : ℚ) : V3 :=
  ⟨ensureLoop lab.y lab.z min_contrast 1 0 200 lab.x, lab.y, lab.z⟩

/-- `image_ops.score_colour`. -/
def score_colour (lab : V3) (prevalence : ℚ) : ℚ :=
  let chroma := ratSqrt (lab.y * lab.y + lab.z * lab.z)
  let lightness_penalty : ℚ :=
    if 85 < lab.x then max 0.25 ((100 - lab.x) / 15)
    else if lab.x < 20 then max 0.1 (lab.x / 20)
    else 1
  let chroma_weight := min 1.5 (max 0.05 (chroma / 40))
  let prevalence_weight := ratSqrt prevalence
  prevalence_weight * chroma_weight * lightness_penalty

/-- A deterministic linear congruential step, used only to make the modelled
clustering initialisation a pure function of its seed. -/
def lcg (seed : ℕ) : ℕ := (1103515245 * seed + 12345) % 2 ^ 31

/-- Iterated `lcg`. -/
def lcgIter (seed : ℕ) : ℕ → ℕ
  | 0 => lcg seed
  | i + 1 => lcg (lcgIter seed i)

/-- Squared Euclidean distance in Lab space. -/
def sqDist (p q : V3) : ℚ :=
  (p.x - q.x) ^ 2 + (p.y - q.y) ^ 2 + (p.z - q.z) ^ 2

/-- First index of the strict minimum (the numpy argmin convention). -/
def argminAux : List ℚ → ℕ → ℕ → ℚ → ℕ
  | [], _, bestIdx, _ => bestIdx
  | v :: vs, i, bestIdx, bestVal =>
    if v < bestVal then argminAux vs (i + 1) i v
    else argminAux vs (i + 1) bestIdx bestVal

/-- `np.argmin` (first occurrence of the minimum; 0 on the empty list). -/
def argminQ : List ℚ → ℕ
  | [] => 0
  | v :: vs => argminAux vs 1 0 v

/-- First index of the strict maximum (the numpy argmax convention). -/
def argmaxAux : List ℚ → ℕ → ℕ → ℚ → ℕ
  | [], _, bestIdx, _ => bestIdx
  | v :: vs, i, bestIdx, bestVal =>
    if bestVal < v then argmaxAux vs (i + 1) i v
    else argmaxAux vs (i + 1) bestIdx bestVal

/-- `np.argmax` (first occurrence of the maximum; 0 on the empty list). -/
def argmaxQ : List ℚ → ℕ
  | [] => 0
  | v :: vs => argmaxAux vs 1 0 v

/-- Index of the nearest cluster centre. -/
def nearestIdx (cs : List V3) (p : V3) : ℕ := argminQ (cs.map (sqDist p))

/-- Componentwise mean of a nonempty point list. -/
def meanV3 (ps : List V3) : V3 :=
  ⟨(ps.map V3.x).sum / (ps.length : ℚ), (ps.map V3.y).sum / (ps.length : ℚ),
    (ps.map V3.z).sum / (ps.length : ℚ)⟩

/-- One Lloyd update: each centre becomes the mean of the points nearest to it
(empty clusters keep their centre). -/
def lloydUpdate (points : List V3) (cs : List V3) : List V3 :=
  (List.range cs.length).map (fun j =>
    let cluster := points.filter (fun p => nearestIdx cs p == j)
    if cluster.isEmpty then cs.getD j ⟨0, 0, 0⟩ else meanV3 cluster)

/-- Iterated Lloyd updates. -/
def lloydIter (points : List V3) : ℕ → List V3 → List V3
  | 0, cs => cs
  | m + 1, cs => lloydIter points m (lloydUpdate points cs)

/-- Seed-determined initial centres (points sampled by the seeded generator). -/
def initCentres (k seed : ℕ) (points : List V3) : List V3 :=
  (List.range k).map (fun i => points.getD (lcgIter seed i % points.length) ⟨0, 0, 0⟩)

/-- Modelled from the spec and the library interface the source names:
`sklearn.cluster.KMeans(n_clusters=k, random_state=rs, n_init=10).fit_predict`
is external code, modelled as a deterministic bounded Lloyd iteration whose
initialisation is a pure function of the seed.  The ambient random state `env`
is consulted only when `random_state` is `None`; the source always passes
`random_state=42`. -/
def kmeansFitPredict (k : ℕ) (randomState : Option ℕ) (env : ℕ)
    (points : List V3) : List V3 × List ℕ :=
  let seed := randomState.getD env
  let centres := lloydIter points 300 (initCentres k seed points)
  (centres, points.map (nearestIdx centres))

/-- `np.bincount(labels, minlength=k)` for labels below `k`. -/
def bincount (k : ℕ) (labels : List ℕ) : List ℕ :=
  (List.range k).map (fun j => labels.count j)

/-- `np.max` of a list (0 on the empty list, which cannot occur here). -/
def maxQ (l : List ℚ) : ℚ := l.foldl max (l.headD 0)

/-- `image_ops.get_theme_colour`, from the post-thumbnail pixel array onward
(`Image.thumbnail` is PIL, an external collaborator; `pixels` is the row-major
8-bit RGB pixel list it produces).  `env` is the ambient random state that the
clustering would consult were no fixed seed passed. -/
def get_theme_colour (env : ℕ) (pixels : List (ℕ × ℕ × ℕ))
    (n_clusters : ℕ) (min_contrast : ℚ) : ℤ × ℤ × ℤ :=
  let rgb_pixels : List V3 :=
    pixels.map (fun p => ⟨(p.1 : ℚ) / 255, (p.2.1 : ℚ) / 255, (p.2.2 : ℚ) / 255⟩)
  if rgb_pixels.length = 0 then (0, 0, 0)
  else
    let linear_pixels := rgb_pixels.map linearizeRGB
    let lab_pixels := linear_pixels.map linearToLab
    let unique_count := linear_pixels.dedup.length
    let k := max 1 (min n_clusters unique_count)
    let fit := kmeansFitPredict k (some 42) env lab_pixels
    let centres := fit.1
    let labels := fit.2
    let counts := bincount k labels
    let total := counts.sum
    let prevalence_scores := counts.map (fun (c : ℕ) => (c : ℚ) / (total : ℚ))
    let scores := List.zipWith score_colour centres prevalence_scores
    let best0 := argmaxQ scores
    let chromas := centres.map (fun c => ratSqrt (c.y ^ 2 + c.z ^ 2))
    let best :=
      if maxQ chromas < 8 then
        let visible_indices := (List.range k).filter
          (fun j => decide (15 < (centres.getD j ⟨0, 0, 0⟩).x))
        if !visible_indices.isEmpty then
          visible_indices.getD
            (argmaxQ (visible_indices.map (fun j => prevalence_scores.getD j 0))) 0
        else argmaxQ (centres.map V3.x)
      else best0
    let best_lab := centres.getD best ⟨0, 0, 0⟩
    let final_lab := ensure_white_text_contrast_lab best_lab min_contrast
    let rgb01 := lab_to_rgb final_lab
    let rgb01 : V3 := ⟨clip01 rgb01.x, clip01 rgb01.y, clip01 rgb01.z⟩
    (pyInt (rgb01.x * 255 + 1 / 2), pyInt (rgb01.y * 255 + 1 / 2),
      pyInt (rgb01.z * 255 + 1 / 2))

/-- Claim C8 (confirmed): theme-colour extraction is deterministic — the
clustering receives the fixed seed 42, so the ambient random state (consulted
only when no seed is supplied) never influences any step, and two runs on
byte-identical pixel data return the identical 8-bit RGB triple. -/
theorem C8_theme_colour_deterministic (env1 env2 : ℕ)
    (pixels : List (ℕ × ℕ × ℕ)) (n_clusters : ℕ) (min_contrast : ℚ) :
    get_theme_colour env1 pixels n_clusters min_contrast
      = get_theme_colour env2 pixels n_clusters min_contrast := rfl

theorem range_one_eq : List.range 1 = [0] := rfl

theorem nearestIdx_singleton (c p : V3) : nearestIdx [c] p = 0 := rfl

theorem sum_replicate_q (a : ℚ) : ∀ n : ℕ, (List.replicate n a).sum = n * a := by
  intro n
  induction n with
  | zero => simp
  | succ m ih =>
    rw [List.replicate_succ, List.sum_cons, ih]
    push_cast
    ring

theorem meanV3_replicate (n : ℕ) (hn : n ≠ 0) (v : V3) :
    meanV3 (List.replicate n v) = v := by
  have hcast : ((n : ℚ)) ≠ 0 := Nat.cast_ne_zero.mpr hn
  rcases v with ⟨vx, vy, vz⟩
  simp only [meanV3, List.map_replicate, sum_replicate_q, List.length_replicate,
    V3.mk.injEq]
  refine ⟨?_, ?_, ?_⟩ <;> exact mul_div_cancel_left₀ _ hcast

theorem dedup_replicate {α : Type} [DecidableEq α] (v : α) :
    ∀ n, (List.replicate (n + 1) v).dedup = [v] := by
  intro n
  induction n with
  | zero => simp
  | succ m ih =>
    rw [List.replicate_succ, List.dedup_cons_of_mem
      (List.mem_replicate.mpr ⟨Nat.succ_ne_zero m, rfl⟩)]
    exact ih

theorem getD_replicate {α : Type} (v d : α) :
    ∀ (n i : ℕ), i < n → (List.replicate n v).getD i d = v := by
  intro n
  induction n with
  | zero => intro i h; omega
  | succ m ih =>
    intro i h
    cases i with
    | zero => rw [List.replicate_succ]; rfl
    | succ j =>
      rw [List.replicate_succ, List.getD_cons_succ]
      exact ih j (by omega)

theorem initCentres_one (seed n : ℕ) (hn : n ≠ 0) (v : V3) :
    initCentres 1 seed (List.replicate n v) = [v] := by
  simp only [initCentres, range_one_eq, List.map_cons, List.map_nil,
    List.length_replicate]
  rw [getD_replicate v ⟨0, 0, 0⟩ n (lcgIter seed 0 % n)
    (Nat.mod_lt _ (Nat.pos_of_ne_zero hn))]

theorem lloydUpdate_replicate (n : ℕ) (hn : n ≠ 0) (v c : V3) :
    lloydUpdate (List.replicate n v) [c] = [v] := by
  have hfil : (List.replicate n v).filter (fun p => nearestIdx [c] p == 0)
      = List.replicate n v :=
    List.filter_eq_self.mpr (fun a _ => by simp [nearestIdx_singleton])
  have hne2 : (List.replicate n v).isEmpty = false := by
    cases n with
    | zero => omega
    | succ m => rw [List.replicate_succ]; rfl
  simp only [lloydUpdate, List.length_singleton, range_one_eq, List.map_cons,
    List.map_nil, hfil, hne2, Bool.false_eq_true, if_false,
    meanV3_replicate n hn v]

theorem lloydIter_fixed (n : ℕ) (hn : n ≠ 0) (v : V3) :
    ∀ m, lloydIter (List.replicate n v) m [v] = [v] := by
  intro m
  induction m with
  | zero => rfl
  | succ m ih =>
    show lloydIter (List.replicate n v) m (lloydUpdate (List.replicate n v) [v]) = [v]
    rw [lloydUpdate_replicate n hn v v]
    exact ih

theorem kmeans_const (n : ℕ) (hn : n ≠ 0) (v : V3) (rs : Option ℕ) (env : ℕ) :
    kmeansFitPredict 1 rs env (List.replicate n v) = ([v], List.replicate n 0) := by
  simp only [kmeansFitPredict]
  rw [initCentres_one (rs.getD env) n hn v, lloydIter_fixed n hn v 300,
    List.map_replicate]
  rfl

theorem count_zero_replicate : ∀ n : ℕ, (List.replicate n 0).count 0 = n := by
  intro n
  induction n with
  | zero => rfl
  | succ m ih =>
    rw [List.replicate_succ, List.count_cons_self, ih]

theorem bincount_one_replicate (n : ℕ) :
    bincount 1 (List.replicate n 0) = [n] := by
  simp only [bincount, range_one_eq, List.map_cons, List.map_nil,
    count_zero_replicate]

set_option maxRecDepth 100000 in
set_option maxHeartbeats 4000000 in
theorem get_theme_colour_allwhite (env : ℕ) (pixels : List (ℕ × ℕ × ℕ))
    (hne : pixels ≠ []) (hall : ∀ p ∈ pixels, p = (255, 255, 255)) :
    get_theme_colour env pixels 8 3 = (147, 147, 147) := by
  have hpix : pixels = List.replicate pixels.length (255, 255, 255) :=
    List.eq_replicate_length.mpr hall
  obtain ⟨m, hm⟩ : ∃ m, pixels.length = m + 1 := by
    cases hp : pixels.length with
    | zero => exact absurd (List.length_eq_zero.mp hp) hne
    | succ m => exact ⟨m, rfl⟩
  have hn : pixels.length ≠ 0 := by omega
  have h255 : ((255 : ℕ) : ℚ) / 255 = 1 := by norm_num
  have hlin : linearizeRGB ⟨1, 1, 1⟩ = ⟨1, 1, 1⟩ := by decide
  have hded : (List.replicate pixels.length (⟨1, 1, 1⟩ : V3)).dedup
      = [(⟨1, 1, 1⟩ : V3)] := by
    rw [hm]
    exact dedup_replicate _ m
  have hkm := kmeans_const pixels.length hn (linearToLab ⟨1, 1, 1⟩) (some 42) env
  have hdivq : ((pixels.length : ℕ) : ℚ) / ((pixels.length : ℕ) : ℚ) = 1 :=
    div_self (Nat.cast_ne_zero.mpr hn)
  conv_lhs => rw [hpix]
  simp only [get_theme_colour, List.map_replicate, List.length_replicate, h255,
    hlin, hded, List.length_singleton, hn, if_false,
    (show (max 1 (min 8 1) : ℕ) = 1 from rfl), hkm, bincount_one_replicate,
    List.sum_cons, List.sum_nil, Nat.add_zero, List.map_cons, List.map_nil,
    hdivq, List.zipWith_cons_cons, List.zipWith_nil_right]
  decide

set_option maxRecDepth 100000 in
set_option maxHeartbeats 1000000 in
/-- Claim C6 (confirmed): for every solid white input image (every pixel
(255,255,255), at least one pixel) and every ambient random state, the colour
returned by theme-colour extraction (`n_clusters=8`, `min_contrast=3` as
`ThemeColours.get` calls it) has a contrast ratio against white, computed as
`1.05 / (relative_luminance + 0.05)`, of at least 3. -/
theorem C6_white_contrast (env : ℕ) (pixels : List (ℕ × ℕ × ℕ))
    (hne : pixels ≠ []) (hall : ∀ p ∈ pixels, p = (255, 255, 255)) :
    3 ≤ contrast_of_rgb255 (get_theme_colour env pixels 8 3) := by
  rw [get_theme_colour_allwhite env pixels hne hall]
  decide

set_option maxRecDepth 100000 in
set_option maxHeartbeats 1000000 in
/-- Witness for C6 at a concrete input: the one-pixel white image. -/
theorem C6_white_contrast_witness :
    ([((255 : ℕ), (255 : ℕ), (255 : ℕ))] ≠ ([] : List (ℕ × ℕ × ℕ))) ∧
    (∀ p ∈ [((255 : ℕ), (255 : ℕ), (255 : ℕ))], p = (255, 255, 255)) ∧
    3 ≤ contrast_of_rgb255 (get_theme_colour 0 [(255, 255, 255)] 8 3) :=
  ⟨by decide, by decide,
    C6_white_contrast 0 [(255, 255, 255)] (by decide) (by decide)⟩

end EinkUI
